import Mathlib

/-!
Verification development for the swarm orchestrator web UI.

The definitions below are a shallow embedding of the orchestration core:

* `src/App.tsx` — the dependency scheduler (the orchestration `useEffect`),
  the launch / reset handlers, the per-task executor `processStream`, and the
  two retry handlers `handleRetryTask` / `handleRetryAllFailed`;
* `src/services/geminiService.ts` — the resilient remote call wrappers
  `generateSingleResponse` and `askProjectManager` with their shared
  retry / backoff / error-classification logic.

TypeScript `Set<number>` values are modelled as `List Nat` (membership is all
the code uses, plus size and add/delete), optional fields as `Option`,
and the reactive `useState` variables as fields of an explicit `AppState`.
`Math.random()`-based jitter is modelled as an arbitrary rational-valued
sequence, constrained by hypotheses where a claim needs the `[0, 1000)` bound.
-/

namespace Swarm

/-- Mirrors `ResponseStatus` from `types.ts` (`'pending' | 'success' | 'error'`). -/
inductive ResponseStatus where
  | pending
  | success
  | error
deriving DecidableEq, Repr

/-- Mirrors `ResponseItem` from `types.ts`.  `content` is optional in the
TypeScript type but is always created as `''` at launch and only ever read
through `r.content || ''`, so it is modelled as a plain `String`. -/
structure ResponseItem where
  id : Nat
  status : ResponseStatus
  content : String
  error : Option String
  activeTool : Option String
  toolUsed : Option String
deriving DecidableEq, Repr

/-- Mirrors `Task` from `types.ts` (the planner-produced task definition). -/
structure Task where
  id : Nat
  name : String
  description : String
  tools : List String
  dependencies : List Nat
  priority : String
  priorityReasoning : String
deriving DecidableEq, Repr

/-- The reactive state of `App.tsx` that the orchestration engine reads and
writes: `responses`, `isSwarming`, `runningTaskIds`, `swarmError`,
`swarmJustCompleted`, `executionPhase`.  The task set (`analysisResult.tasks`)
is immutable for one mission and is passed separately. -/
structure AppState where
  responses : List ResponseItem
  isSwarming : Bool
  running : List Nat
  swarmError : Option String
  swarmJustCompleted : Bool
  executionPhase : Option String
deriving DecidableEq, Repr

/-- Mirrors `completedTaskIds` in the orchestration effect:
`new Set(responses.filter(r => r.status === SUCCESS).map(r => r.id))`. -/
def completedTaskIds (responses : List ResponseItem) : List Nat :=
  (responses.filter (fun r => r.status == ResponseStatus.success)).map (fun r => r.id)

/-- Mirrors the `runnableTasks` computation in the orchestration effect:
pending responses not currently running, mapped to their task definitions
(`taskMap.get(r.id)!` — the code asserts the definition exists; `find?` models
the map lookup), keeping only tasks whose dependencies are all completed. -/
def runnableTasks (tasks : List Task) (responses : List ResponseItem)
    (running : List Nat) : List Task :=
  (((responses.filter
        (fun r => r.status == ResponseStatus.pending && !(running.contains r.id))).filterMap
      (fun r => tasks.find? (fun t => t.id == r.id))).filter
    (fun t => t.dependencies.all (fun d => (completedTaskIds responses).contains d)))

/-- The per-task error message applied by the deadlock branch. -/
def deadlockTaskMsg : String := "Deadlock: dependency not met."

/-- The mission-level deadlock message
(`Deadlock detected. The following tasks cannot run due to unmet dependencies: ...`). -/
def deadlockMissionMsg (tasks : List Task) (responses : List ResponseItem) : String :=
  "Deadlock detected. The following tasks cannot run due to unmet dependencies: "
    ++ String.intercalate ", "
      ((responses.filter (fun r => r.status == ResponseStatus.pending)).map
        (fun r =>
          match tasks.find? (fun t => t.id == r.id) with
          | some t => t.name
          | none => "ID " ++ toString r.id))

/-- Set-insert of each dispatched task id into the running set, mirroring
`const newRunningIds = new Set(runningTaskIds); runnableTasks.forEach(t => newRunningIds.add(t.id))`. -/
def addRunningIds (running : List Nat) (ts : List Task) : List Nat :=
  ts.foldl (fun acc t => if acc.contains t.id then acc else acc ++ [t.id]) running

/-- One run of the orchestration-engine effect in `App.tsx` (the `useEffect`
with the dispatch / completion / deadlock decision).  Returns the updated
state together with the list of tasks whose executors are started by this run.
The early return on `!analysisResult` is modelled by the caller always
supplying the mission's task list. -/
def schedulerStep (tasks : List Task) (s : AppState) : AppState × List Task :=
  if !s.isSwarming then (s, [])
  else
    let runnable := runnableTasks tasks s.responses s.running
    if runnable.length > 0 then
      ({ s with
          running := addRunningIds s.running runnable,
          executionPhase := some ("Executing " ++ toString runnable.length ++ " task(s)...") },
        runnable)
    else
      let isStillRunning := s.running.length > 0
      let hasPending := s.responses.any (fun r => r.status == ResponseStatus.pending)
      let hasFailed := s.responses.any (fun r => r.status == ResponseStatus.error)
      if !isStillRunning && !hasPending then
        ({ s with isSwarming := false, swarmJustCompleted := true, executionPhase := none }, [])
      else if !isStillRunning && hasPending && !hasFailed then
        ({ s with
            swarmError := some (deadlockMissionMsg tasks s.responses),
            responses := s.responses.map (fun r =>
              if r.status == ResponseStatus.pending then
                { r with status := ResponseStatus.error, error := some deadlockTaskMsg }
              else r),
            isSwarming := false }, [])
      else (s, [])

/-- The initial `ResponseItem` collection created by `handleLaunchSwarm`:
one `PENDING` entry per task with empty content. -/
def initialResponses (tasks : List Task) : List ResponseItem :=
  tasks.map (fun t => ⟨t.id, ResponseStatus.pending, "", none, none, none⟩)

/-- Mirrors `handleLaunchSwarm` (guard `isSwarming`; the `!analysisResult`
guard is modelled by the caller supplying the task list). -/
def handleLaunchSwarm (tasks : List Task) (s : AppState) : AppState :=
  if s.isSwarming then s
  else
    { s with
        isSwarming := true,
        swarmError := none,
        running := [],
        responses := initialResponses tasks,
        executionPhase := some "Initializing Orchestrator..." }

/-- The reset applied to a `ResponseItem` by both retry handlers:
`{...r, status: PENDING, content: '', error: undefined, activeTool: null, toolUsed: undefined}`. -/
def resetResponse (r : ResponseItem) : ResponseItem :=
  { r with
      status := ResponseStatus.pending,
      content := "",
      error := none,
      activeTool := none,
      toolUsed := none }

/-- One pass of the recursive `findDependents` closure inside
`handleRetryTask`: scan the task list, and for every task that lists `id` as
a dependency and is not yet in the accumulated set, add its id and recurse on
it (`recurse` is the recursive call, supplied by `findDependentsGo`). -/
def findDependentsScan (recurse : Nat → List Nat → List Nat) :
    List Task → Nat → List Nat → List Nat
  | [], _, acc => acc
  | t :: rem, id, acc =>
    if t.dependencies.contains id && !(acc.contains t.id) then
      findDependentsScan recurse rem id (recurse t.id (t.id :: acc))
    else
      findDependentsScan recurse rem id acc

/-- Fuelled driver for the `findDependents` recursion.  The JavaScript
version recurses over an unboundedly growing shared `Set`; the embedding
threads the accumulator explicitly and bounds the recursion depth by a fuel
argument.  `findDependents` below supplies fuel `tasks.length + 1`, which is
proved sufficient (`findDependents_iff`). -/
def findDependentsGo (tasks : List Task) : Nat → Nat → List Nat → List Nat
  | 0, id, acc => findDependentsScan (fun _ a => a) tasks id acc
  | fuel + 1, id, acc => findDependentsScan (findDependentsGo tasks fuel) tasks id acc

/-- The `dependentTasks` set computed by `handleRetryTask`: the target id plus
every task that transitively depends on it. -/
def findDependents (tasks : List Task) (taskId : Nat) : List Nat :=
  findDependentsGo tasks (tasks.length + 1) taskId [taskId]

/-- Mirrors `handleRetryTask`: refuse when a swarm is active or the target has
no response entry; otherwise reset the dependent closure to pending and
restart the loop. -/
def handleRetryTask (tasks : List Task) (s : AppState) (taskId : Nat) : AppState :=
  if s.isSwarming then s
  else
    match s.responses.find? (fun r => r.id == taskId) with
    | none => s
    | some _ =>
      let dependentTasks := findDependents tasks taskId
      { s with
          isSwarming := true,
          swarmError := none,
          responses := s.responses.map (fun r =>
            if dependentTasks.contains r.id then resetResponse r else r) }

/-- Mirrors `handleRetryAllFailed`: refuse when a swarm is active or there are
no failed responses; otherwise reset exactly the failed ids to pending. -/
def handleRetryAllFailed (s : AppState) : AppState :=
  if s.isSwarming then s
  else
    let failedResponses := s.responses.filter (fun r => r.status == ResponseStatus.error)
    if failedResponses.length == 0 then s
    else
      let taskIdsToRetry := failedResponses.map (fun r => r.id)
      { s with
          isSwarming := true,
          swarmError := none,
          executionPhase :=
            some ("Retrying " ++ toString failedResponses.length ++ " failed task(s)..."),
          responses := s.responses.map (fun r =>
            if taskIdsToRetry.contains r.id then resetResponse r else r) }

example :
    runnableTasks
      [⟨0, "a", "", [], [], "High", ""⟩, ⟨1, "b", "", [], [0], "High", ""⟩]
      [⟨0, ResponseStatus.success, "x", none, none, none⟩,
        ⟨1, ResponseStatus.pending, "", none, none, none⟩] []
      = [⟨1, "b", "", [], [0], "High", ""⟩] := by decide

example : findDependents [⟨1, "b", "", [], [0], "High", ""⟩] 0 = [1, 0] := by decide

/-- Substring test on character lists, modelling JavaScript
`String.prototype.includes`: does `pat` occur contiguously in `hay`? -/
def containsSub (pat : List Char) : List Char → Bool
  | [] => pat.isEmpty
  | c :: rest => pat.isPrefixOf (c :: rest) || containsSub pat rest

/-- Mirrors `isRetryableError` in `geminiService.ts`: lower-case the error
message and check it for one of five transient-condition substrings.
`String.toLowerCase().includes(p)` is modelled on the character list. -/
def isRetryableError (message : String) : Bool :=
  let m := message.toList.map Char.toLower
  containsSub "503".toList m || containsSub "unavailable".toList m ||
    containsSub "500".toList m || containsSub "internal".toList m ||
    containsSub "rate limit".toList m

example : isRetryableError "503 Service Unavailable" = true := by decide
example : isRetryableError "Unexpected token < in JSON" = false := by decide

/-- The outcome of one attempt of the streaming call inside
`generateSingleResponse`: either the stream completes after yielding
`fragments`, or it throws `err` after having already yielded `fragments`. -/
inductive AttemptResult where
  | success (fragments : List String)
  | failure (fragments : List String) (err : String)
deriving DecidableEq, Repr

/-- Observable trace of one `generateSingleResponse` call: every fragment the
generator yielded to its consumer (across all attempts, in order), the final
outcome, the backoff delays slept between attempts, and the number of
attempts made. -/
structure StreamRun where
  yielded : List String
  outcome : Except String Unit
  delays : List ℚ
  attemptsMade : Nat

/-- The retry loop of `generateSingleResponse`.  `attempts n` is the outcome
of the `n`-th (0-based) attempt of the remote stream; `jitter n` models the
`Math.random() * 1000` term added to the `n`-th backoff delay.  `attempt`
mirrors the loop counter (number of failures so far), `acc` the fragments
already yielded, `delays` the sleeps performed so far. -/
def runStreamGo (attempts : Nat → AttemptResult) (maxRetries : Nat)
    (initialDelay : ℚ) (jitter : Nat → ℚ) (attempt : Nat) (acc : List String)
    (delays : List ℚ) : StreamRun :=
  match attempts attempt with
  | AttemptResult.success frags => ⟨acc ++ frags, Except.ok (), delays, attempt + 1⟩
  | AttemptResult.failure frags err =>
    if h : attempt + 1 ≥ maxRetries ∨ isRetryableError err = false then
      ⟨acc ++ frags, Except.error err, delays, attempt + 1⟩
    else
      runStreamGo attempts maxRetries initialDelay jitter (attempt + 1) (acc ++ frags)
        (delays ++ [initialDelay * 2 ^ attempt + jitter attempt])
termination_by maxRetries - attempt
decreasing_by
  push_neg at h
  omega

/-- One full `generateSingleResponse` call (defaults in the source:
`maxRetries = 5`, `initialDelay = 1000`). -/
def runStream (attempts : Nat → AttemptResult) (maxRetries : Nat)
    (initialDelay : ℚ) (jitter : Nat → ℚ) : StreamRun :=
  runStreamGo attempts maxRetries initialDelay jitter 0 [] []

/-- Default `maxRetries` of `generateSingleResponse` and `askProjectManager`. -/
def defaultMaxRetries : Nat := 5

/-- Default `initialDelay` (milliseconds). -/
def defaultInitialDelay : ℚ := 1000

/-- The jitter bound: the code adds `Math.random() * 1000`. -/
def jitterMax : ℚ := 1000

/-- One attempt of `askProjectManager`: either `chat.sendMessage` throws, or
it returns a text blob to be sanitized and parsed. -/
inductive PMAttempt where
  | sendError (err : String)
  | response (text : String)

/-- Mirrors the sanitization in `askProjectManager`: `response.text.trim()`,
strip a leading code-fence marker (the first 7 characters when the text
starts with a json fence), strip a trailing fence (drop the last 3). -/
def sanitizeJsonText (s : String) : String :=
  let t := s.trim
  let t := if t.startsWith "```json" then t.drop 7 else t
  if t.endsWith "```" then t.dropRight 3 else t

/-- Observable trace of one `askProjectManager` call. -/
structure PMRun (α : Type) where
  outcome : Except String α
  delays : List ℚ
  attemptsMade : Nat

/-- The outcome of one attempt body of `askProjectManager`: a send failure is
an error; otherwise the sanitized text is parsed (`JSON.parse` is modelled by
the abstract `parse` function) and a parse failure is an error too. -/
def pmAttemptOutcome {α : Type} (parse : String → Except String α)
    (a : PMAttempt) : Except String α :=
  match a with
  | PMAttempt.sendError e => Except.error e
  | PMAttempt.response t => parse (sanitizeJsonText t)

/-- The retry loop of `askProjectManager`: identical retry / backoff /
classification logic to `generateSingleResponse`, but the permanent failure
is wrapped in a `Failed to get plan from Project Manager:` message. -/
def askProjectManagerGo {α : Type} (parse : String → Except String α)
    (attempts : Nat → PMAttempt) (maxRetries : Nat) (initialDelay : ℚ)
    (jitter : Nat → ℚ) (attempt : Nat) (delays : List ℚ) : PMRun α :=
  match pmAttemptOutcome parse (attempts attempt) with
  | Except.ok v => ⟨Except.ok v, delays, attempt + 1⟩
  | Except.error e =>
    if h : attempt + 1 ≥ maxRetries ∨ isRetryableError e = false then
      ⟨Except.error ("Failed to get plan from Project Manager: " ++ e), delays, attempt + 1⟩
    else
      askProjectManagerGo parse attempts maxRetries initialDelay jitter (attempt + 1)
        (delays ++ [initialDelay * 2 ^ attempt + jitter attempt])
termination_by maxRetries - attempt
decreasing_by
  push_neg at h
  omega

/-- One full `askProjectManager` call. -/
def askProjectManager {α : Type} (parse : String → Except String α)
    (attempts : Nat → PMAttempt) (maxRetries : Nat) (initialDelay : ℚ)
    (jitter : Nat → ℚ) : PMRun α :=
  askProjectManagerGo parse attempts maxRetries initialDelay jitter 0 []

/-- The error message `processStream` records when a response id has no
matching task definition. -/
def taskNotFoundMsg (rid : Nat) : String :=
  "Task definition for ID " ++ toString rid ++ " not found."

/-- Result of the entry phase of `processStream`: the updated response
collection and whether a remote stream was issued. -/
structure ProcessOutcome where
  responses : List ResponseItem
  remoteCallIssued : Bool
deriving DecidableEq, Repr

/-- The entry of `processStream` (`App.tsx` lines 83–90): look up the task
definition for the response id; when it is missing, mark that response as
`ERROR` with a message naming the id and return without issuing a remote
call.  When it is found, the executor proceeds to the streaming call (whose
behaviour is modelled by `runStream`). -/
def processStreamStart (tasks : List Task) (responses : List ResponseItem)
    (rid : Nat) : ProcessOutcome :=
  match tasks.find? (fun t => t.id == rid) with
  | none =>
    ⟨responses.map (fun r =>
        if r.id == rid then
          { r with status := ResponseStatus.error, error := some (taskNotFoundMsg rid) }
        else r),
      false⟩
  | some _ => ⟨responses, true⟩

/-- The state of `App.tsx` before any mission: empty responses, not swarming,
nothing running. -/
def initialAppState : AppState :=
  ⟨[], false, [], none, false, none⟩

/-- One observable state change of the application for a fixed mission task
set: the orchestration effect firing, a user handler running, or one of the
asynchronous executor callbacks applying its `setResponses` /
`setRunningTaskIds` update.  Each constructor mirrors one `setState` batch in
`App.tsx`. -/
inductive AppStep (tasks : List Task) : AppState → AppState → Prop
  | sched (s : AppState) :
      AppStep tasks s (schedulerStep tasks s).1
  | launch (s : AppState) :
      AppStep tasks s (handleLaunchSwarm tasks s)
  | retryTask (s : AppState) (tid : Nat) :
      AppStep tasks s (handleRetryTask tasks s tid)
  | retryAllFailed (s : AppState) :
      AppStep tasks s (handleRetryAllFailed s)
  | reset (s : AppState) :
      AppStep tasks s initialAppState
  | sendMessage (s : AppState) :
      s.isSwarming = false →
      AppStep tasks s { s with responses := [], running := [], swarmError := none }
  | execActiveTool (s : AppState) (rid : Nat) (tool : String) :
      rid ∈ s.running →
      AppStep tasks s { s with responses := s.responses.map (fun r =>
        if r.id == rid then { r with activeTool := some tool } else r) }
  | execChunk (s : AppState) (rid : Nat) (chunk : String) :
      rid ∈ s.running →
      AppStep tasks s { s with responses := s.responses.map (fun r =>
        if r.id == rid then { r with content := r.content ++ chunk } else r) }
  | execSuccess (s : AppState) (rid : Nat) (tool : Option String) :
      rid ∈ s.running →
      AppStep tasks s { s with responses := s.responses.map (fun r =>
        if r.id == rid then
          { r with status := ResponseStatus.success, activeTool := none, toolUsed := tool }
        else r) }
  | execError (s : AppState) (rid : Nat) (msg : String) (tool : Option String) :
      rid ∈ s.running →
      AppStep tasks s { s with responses := s.responses.map (fun r =>
        if r.id == rid then
          { r with
              status := ResponseStatus.error,
              error := some msg,
              activeTool := none,
              toolUsed := tool }
        else r) }
  | execMissing (s : AppState) (rid : Nat) :
      rid ∈ s.running →
      AppStep tasks s { s with responses := s.responses.map (fun r =>
        if r.id == rid then
          { r with status := ResponseStatus.error, error := some (taskNotFoundMsg rid) }
        else r) }
  | execFinish (s : AppState) (rid : Nat) :
      AppStep tasks s { s with running := s.running.erase rid }

/-- States reachable from the initial application state for a fixed mission
task set. -/
inductive Reachable (tasks : List Task) : AppState → Prop
  | init : Reachable tasks initialAppState
  | step {s s' : AppState} : Reachable tasks s → AppStep tasks s s' → Reachable tasks s'

/-- The transitive-dependent closure used by the spec to describe the retry
cascade: `DependsOn tasks x y` holds when `y = x` or `y` is the id of a task
that (directly or indirectly) depends on `x`. -/
inductive DependsOn (tasks : List Task) (x : Nat) : Nat → Prop
  | base : DependsOn tasks x x
  | step {b : Nat} {t : Task} :
      DependsOn tasks x b → t ∈ tasks → b ∈ t.dependencies → DependsOn tasks x t.id

/-- The scan only grows the accumulated id set, provided the recursive call
does. -/
theorem findDependentsScan_mono (recurse : Nat → List Nat → List Nat)
    (hrecm : ∀ i a, a ⊆ recurse i a) :
    ∀ (rem : List Task) (id : Nat) (acc : List Nat),
      acc ⊆ findDependentsScan recurse rem id acc := by
  intro rem
  induction rem with
  | nil => intro id acc; simp [findDependentsScan]
  | cons t rem ih =>
    intro id acc
    simp only [findDependentsScan]
    split
    · exact fun _ hy => ih _ _ (hrecm _ _ (List.mem_cons_of_mem _ hy))
    · exact ih _ _

/-- The fuelled driver only grows the accumulated id set. -/
theorem findDependentsGo_mono (tasks : List Task) :
    ∀ (fuel id : Nat) (acc : List Nat), acc ⊆ findDependentsGo tasks fuel id acc := by
  intro fuel
  induction fuel with
  | zero =>
    intro id acc
    exact findDependentsScan_mono _ (fun _ _ => List.Subset.refl _) tasks id acc
  | succ fuel ih =>
    intro id acc
    exact findDependentsScan_mono _ (fun i a => ih i a) tasks id acc

/-- Soundness of the scan: everything it adds transitively depends on the
retry target `x`. -/
theorem findDependentsScan_sound (tasks : List Task) (x : Nat)
    (recurse : Nat → List Nat → List Nat)
    (hrec : ∀ i a, DependsOn tasks x i → (∀ z ∈ a, DependsOn tasks x z) →
      ∀ y ∈ recurse i a, DependsOn tasks x y) :
    ∀ (rem : List Task) (id : Nat) (acc : List Nat),
      (∀ t ∈ rem, t ∈ tasks) → DependsOn tasks x id →
      (∀ z ∈ acc, DependsOn tasks x z) →
      ∀ y ∈ findDependentsScan recurse rem id acc, DependsOn tasks x y := by
  intro rem
  induction rem with
  | nil =>
    intro id acc _ _ hacc y hy
    simp only [findDependentsScan] at hy
    exact hacc y hy
  | cons t rem ih =>
    intro id acc hrem hid hacc y hy
    simp only [findDependentsScan] at hy
    by_cases hcond : (t.dependencies.contains id && !(acc.contains t.id)) = true
    · rw [if_pos hcond] at hy
      have hdep : id ∈ t.dependencies := by
        have := hcond
        simp only [Bool.and_eq_true] at this
        simpa using this.1
      have htid : DependsOn tasks x t.id :=
        DependsOn.step hid (hrem t (List.mem_cons_self t rem)) hdep
      refine ih id _ (fun u hu => hrem u (List.mem_cons_of_mem t hu)) hid ?_ y hy
      intro z hz
      refine hrec t.id (t.id :: acc) htid ?_ z hz
      intro w hw
      rcases List.mem_cons.mp hw with hw | hw
      · exact hw ▸ htid
      · exact hacc w hw
    · rw [if_neg hcond] at hy
      exact ih id acc (fun u hu => hrem u (List.mem_cons_of_mem t hu)) hid hacc y hy

/-- Soundness of the fuelled driver. -/
theorem findDependentsGo_sound (tasks : List Task) (x : Nat) :
    ∀ (fuel id : Nat) (acc : List Nat),
      DependsOn tasks x id → (∀ z ∈ acc, DependsOn tasks x z) →
      ∀ y ∈ findDependentsGo tasks fuel id acc, DependsOn tasks x y := by
  intro fuel
  induction fuel with
  | zero =>
    intro id acc hid hacc
    exact findDependentsScan_sound tasks x _ (fun _ _ _ ha _ hy => ha _ hy)
      tasks id acc (fun _ h => h) hid hacc
  | succ fuel ih =>
    intro id acc hid hacc
    exact findDependentsScan_sound tasks x _ (fun i a hi ha => ih i a hi ha)
      tasks id acc (fun _ h => h) hid hacc

/-- Completeness of the scan, under enough fuel for the recursive calls:
every remaining task that lists the scanned id is added, and every id the
scan adds has all of its direct dependents added as well. -/
theorem findDependentsScan_complete (tasks : List Task) (N : Nat)
    (recurse : Nat → List Nat → List Nat)
    (hrecm : ∀ i a, a ⊆ recurse i a)
    (hrec : ∀ i a, ((tasks.map Task.id).toFinset \ a.toFinset).card + 1 ≤ N →
      (∀ t ∈ tasks, i ∈ t.dependencies → t.id ∈ recurse i a) ∧
      (∀ y ∈ recurse i a, y ∉ a → ∀ t ∈ tasks, y ∈ t.dependencies → t.id ∈ recurse i a)) :
    ∀ (rem : List Task) (id : Nat) (acc : List Nat),
      (∀ t ∈ rem, t ∈ tasks) →
      ((tasks.map Task.id).toFinset \ acc.toFinset).card ≤ N →
      (∀ t ∈ rem, id ∈ t.dependencies → t.id ∈ findDependentsScan recurse rem id acc) ∧
      (∀ y ∈ findDependentsScan recurse rem id acc, y ∉ acc →
        ∀ t ∈ tasks, y ∈ t.dependencies → t.id ∈ findDependentsScan recurse rem id acc) := by
  intro rem
  induction rem with
  | nil =>
    intro id acc _ _
    constructor
    · intro t ht
      exact absurd ht (by simp)
    · intro y hy hyacc
      simp only [findDependentsScan] at hy
      exact absurd hy hyacc
  | cons t rem ih =>
    intro id acc hrem hcard
    have hremsub : ∀ u ∈ rem, u ∈ tasks := fun u hu => hrem u (List.mem_cons_of_mem t hu)
    simp only [findDependentsScan]
    by_cases hcond : (t.dependencies.contains id && !(acc.contains t.id)) = true
    · rw [if_pos hcond]
      have hpair := hcond
      simp only [Bool.and_eq_true, Bool.not_eq_true'] at hpair
      have htidacc : t.id ∉ acc := by
        have := hpair.2
        simpa using this
      have htidset : t.id ∈ (tasks.map Task.id).toFinset := by
        simp only [List.mem_toFinset, List.mem_map]
        exact ⟨t, hrem t (List.mem_cons_self t rem), rfl⟩
      have htid_sdiff : t.id ∈ (tasks.map Task.id).toFinset \ acc.toFinset := by
        simp only [Finset.mem_sdiff, List.mem_toFinset]
        exact ⟨by simpa using htidset, htidacc⟩
      have hcard' :
          ((tasks.map Task.id).toFinset \ (t.id :: acc).toFinset).card + 1 ≤ N := by
        have herase :
            (tasks.map Task.id).toFinset \ (t.id :: acc).toFinset
              = ((tasks.map Task.id).toFinset \ acc.toFinset).erase t.id := by
          rw [List.toFinset_cons, Finset.sdiff_insert]
        rw [herase, Finset.card_erase_of_mem htid_sdiff]
        have hpos : 0 < ((tasks.map Task.id).toFinset \ acc.toFinset).card :=
          Finset.card_pos.mpr ⟨t.id, htid_sdiff⟩
        omega
      obtain ⟨h1', h2'⟩ := hrec t.id (t.id :: acc) hcard'
      set acc' := recurse t.id (t.id :: acc) with hacc'def
      have hsub1 : (t.id :: acc) ⊆ acc' := hrecm t.id (t.id :: acc)
      have hsubacc : acc ⊆ acc' := fun _ hz => hsub1 (List.mem_cons_of_mem _ hz)
      have hcard'' : ((tasks.map Task.id).toFinset \ acc'.toFinset).card ≤ N := by
        refine le_trans (Finset.card_le_card ?_) hcard
        refine Finset.sdiff_subset_sdiff (le_refl _) ?_
        intro z hz
        simp only [List.mem_toFinset] at hz ⊢
        exact hsubacc hz
      obtain ⟨ih1, ih2⟩ := ih id acc' hremsub hcard''
      have haccR : acc' ⊆ findDependentsScan recurse rem id acc' :=
        findDependentsScan_mono recurse hrecm rem id acc'
      constructor
      · intro t' ht' hdep
        rcases List.mem_cons.mp ht' with ht' | ht'
        · subst ht'
          exact haccR (hsub1 (List.mem_cons_self _ _))
        · exact ih1 t' ht' hdep
      · intro y hy hyacc t' ht' hdep
        by_cases hyacc' : y ∈ acc'
        · by_cases hytid : y = t.id
          · subst hytid
            exact haccR (h1' t' ht' hdep)
          · have hynotc : y ∉ t.id :: acc := by
              intro hmem
              rcases List.mem_cons.mp hmem with h | h
              · exact hytid h
              · exact hyacc h
            exact haccR (h2' y hyacc' hynotc t' ht' hdep)
        · exact ih2 y hy hyacc' t' ht' hdep
    · rw [if_neg hcond]
      obtain ⟨ih1, ih2⟩ := ih id acc hremsub hcard
      have haccR : acc ⊆ findDependentsScan recurse rem id acc :=
        findDependentsScan_mono recurse hrecm rem id acc
      constructor
      · intro t' ht' hdep
        rcases List.mem_cons.mp ht' with ht' | ht'
        · subst ht'
          have htidacc : t'.id ∈ acc := by
            by_contra hno
            apply hcond
            simp only [Bool.and_eq_true, Bool.not_eq_true']
            constructor
            · simpa using hdep
            · simpa using hno
          exact haccR htidacc
        · exact ih1 t' ht' hdep
      · exact ih2

/-- Completeness of the fuelled driver under enough fuel. -/
theorem findDependentsGo_complete (tasks : List Task) :
    ∀ (fuel id : Nat) (acc : List Nat),
      ((tasks.map Task.id).toFinset \ acc.toFinset).card ≤ fuel →
      (∀ t ∈ tasks, id ∈ t.dependencies → t.id ∈ findDependentsGo tasks fuel id acc) ∧
      (∀ y ∈ findDependentsGo tasks fuel id acc, y ∉ acc →
        ∀ t ∈ tasks, y ∈ t.dependencies → t.id ∈ findDependentsGo tasks fuel id acc) := by
  intro fuel
  induction fuel with
  | zero =>
    intro id acc hcard
    exact findDependentsScan_complete tasks 0 _ (fun _ _ => List.Subset.refl _)
      (fun _ _ h => absurd h (by omega)) tasks id acc (fun _ h => h) hcard
  | succ fuel ih =>
    intro id acc hcard
    exact findDependentsScan_complete tasks (fuel + 1) _ (fun i a => findDependentsGo_mono tasks fuel i a)
      (fun i a h => ih i a (by omega)) tasks id acc (fun _ h => h) hcard

/-- The id set computed by `handleRetryTask`'s `findDependents` is exactly the
target together with the tasks transitively depending on it. -/
theorem findDependents_iff (tasks : List Task) (x y : Nat) :
    y ∈ findDependents tasks x ↔ DependsOn tasks x y := by
  constructor
  · intro hy
    refine findDependentsGo_sound tasks x (tasks.length + 1) x [x]
      DependsOn.base ?_ y hy
    intro z hz
    rcases List.mem_cons.mp hz with h | h
    · exact h ▸ DependsOn.base
    · exact absurd h (by simp)
  · intro h
    have hcard :
        ((tasks.map Task.id).toFinset \ ([x] : List Nat).toFinset).card ≤ tasks.length + 1 := by
      calc ((tasks.map Task.id).toFinset \ ([x] : List Nat).toFinset).card
          ≤ (tasks.map Task.id).toFinset.card := Finset.card_le_card (Finset.sdiff_subset)
        _ ≤ (tasks.map Task.id).length := List.toFinset_card_le _
        _ = tasks.length := List.length_map _ _
        _ ≤ tasks.length + 1 := Nat.le_succ _
    obtain ⟨h1, h2⟩ := findDependentsGo_complete tasks (tasks.length + 1) x [x] hcard
    have hx : x ∈ findDependents tasks x :=
      findDependentsGo_mono tasks (tasks.length + 1) x [x] (List.mem_singleton_self x)
    induction h with
    | base => exact hx
    | step hb ht hdep ihb =>
      rename_i b t
      by_cases hbx : b = x
      · subst hbx
        exact h1 t ht hdep
      · exact h2 b ihb (by simp [hbx]) t ht hdep

/-- Membership in the retry cascade is decidable via the computed id set. -/
instance (tasks : List Task) (x y : Nat) : Decidable (DependsOn tasks x y) :=
  decidable_of_iff (y ∈ findDependents tasks x) (findDependents_iff tasks x y)

/-- Bridge between the boolean `contains` used by the code and membership. -/
theorem contains_true_iff {α : Type} [BEq α] [LawfulBEq α] {a : α} {l : List α} :
    l.contains a = true ↔ a ∈ l := List.elem_iff

/-- Two tasks of a list with `Nodup` ids and the same id are equal. -/
theorem task_eq_of_id_eq {tasks : List Task} (hnd : (tasks.map Task.id).Nodup)
    {t t' : Task} (ht : t ∈ tasks) (ht' : t' ∈ tasks) (h : t.id = t'.id) : t = t' :=
  List.inj_on_of_nodup_map hnd ht ht' h

/-- Characterization of membership in `completedTaskIds`. -/
theorem mem_completedTaskIds_iff {responses : List ResponseItem} {d : Nat} :
    d ∈ completedTaskIds responses ↔
      ∃ r ∈ responses, r.id = d ∧ r.status = ResponseStatus.success := by
  simp only [completedTaskIds, List.mem_map, List.mem_filter, beq_iff_eq]
  constructor
  · rintro ⟨r, ⟨hr, hs⟩, hid⟩
    exact ⟨r, hr, hid, hs⟩
  · rintro ⟨r, hr, hid, hs⟩
    exact ⟨r, ⟨hr, hs⟩, hid⟩

/-- Characterization of the runnable set computed by the orchestration
effect: a task is runnable exactly when it has a pending response, is not in
the running set, and every dependency id has a successful response. -/
theorem mem_runnableTasks_iff {tasks : List Task} {responses : List ResponseItem}
    {running : List Nat} {t : Task}
    (hnd : (tasks.map Task.id).Nodup) (ht : t ∈ tasks) :
    t ∈ runnableTasks tasks responses running ↔
      (∃ r ∈ responses, r.id = t.id ∧ r.status = ResponseStatus.pending) ∧
        t.id ∉ running ∧
        ∀ d ∈ t.dependencies,
          ∃ r ∈ responses, r.id = d ∧ r.status = ResponseStatus.success := by
  constructor
  · intro hmem
    simp only [runnableTasks, List.mem_filter, List.mem_filterMap] at hmem
    obtain ⟨⟨r, ⟨hrmem, hcond⟩, hfind⟩, hall⟩ := hmem
    simp only [Bool.and_eq_true, beq_iff_eq, Bool.not_eq_true'] at hcond
    have hid : t.id = r.id := by
      have := List.find?_some hfind
      simpa using this
    refine ⟨⟨r, hrmem, hid.symm, hcond.1⟩, ?_, ?_⟩
    · rw [hid]
      intro hin
      have := hcond.2
      rw [Bool.eq_false_iff] at this
      exact this (contains_true_iff.mpr hin)
    · intro d hd
      have hc := (List.all_eq_true.mp hall) d hd
      exact mem_completedTaskIds_iff.mp (contains_true_iff.mp hc)
  · rintro ⟨⟨r, hrmem, hid, hpend⟩, hrun, hdeps⟩
    simp only [runnableTasks, List.mem_filter, List.mem_filterMap]
    have hcond : (r.status == ResponseStatus.pending && !(running.contains r.id)) = true := by
      simp only [Bool.and_eq_true, beq_iff_eq, Bool.not_eq_true']
      refine ⟨hpend, ?_⟩
      rw [Bool.eq_false_iff]
      intro hcon
      exact hrun (hid ▸ contains_true_iff.mp hcon)
    refine ⟨⟨r, ⟨hrmem, hcond⟩, ?_⟩, ?_⟩
    · have hsome : (tasks.find? (fun u => u.id == r.id)).isSome := by
        rw [List.find?_isSome]
        exact ⟨t, ht, by simp [hid]⟩
      obtain ⟨u, hu⟩ := Option.isSome_iff_exists.mp hsome
      have huid : u.id = r.id := by
        have := List.find?_some hu
        simpa using this
      have humem := List.mem_of_find?_eq_some hu
      have : u = t := task_eq_of_id_eq hnd humem ht (by rw [huid, hid])
      rw [hu, this]
    · rw [List.all_eq_true]
      intro d hd
      exact contains_true_iff.mpr (mem_completedTaskIds_iff.mpr (hdeps d hd))

/-- C1.  In every state of the orchestration engine, a task is dispatched
(its executor started) exactly when the mission is active, the task's result
is Pending, its id is not in the running set, and every dependency id has a
result with status Success; in particular, at the moment a task's executor
starts, all of its dependencies have status Success. -/
theorem c1_dispatch_iff_ready (tasks : List Task) (s : AppState) (t : Task)
    (hnd : (tasks.map Task.id).Nodup) (ht : t ∈ tasks) :
    t ∈ (schedulerStep tasks s).2 ↔
      s.isSwarming = true ∧
        (∃ r ∈ s.responses, r.id = t.id ∧ r.status = ResponseStatus.pending) ∧
        t.id ∉ s.running ∧
        ∀ d ∈ t.dependencies,
          ∃ r ∈ s.responses, r.id = d ∧ r.status = ResponseStatus.success := by
  cases hsw : s.isSwarming with
  | false =>
    have hstep : (schedulerStep tasks s).2 = [] := by
      simp [schedulerStep, hsw]
    rw [hstep]
    simp [hsw]
  | true =>
    by_cases hlen : (runnableTasks tasks s.responses s.running).length > 0
    · have hstep : (schedulerStep tasks s).2 = runnableTasks tasks s.responses s.running := by
        simp [schedulerStep, hsw, hlen]
      rw [hstep, mem_runnableTasks_iff hnd ht]
      simp [hsw]
    · have hnil : runnableTasks tasks s.responses s.running = [] := by
        cases h : runnableTasks tasks s.responses s.running with
        | nil => rfl
        | cons a l => rw [h] at hlen; simp at hlen
      have hstep : (schedulerStep tasks s).2 = [] := by
        simp only [schedulerStep, hsw]
        simp only [Bool.not_true, Bool.false_eq_true, if_false, hnil]
        split
        · rfl
        split
        · rfl
        split
        · rfl
        · rfl
      rw [hstep]
      constructor
      · intro h
        exact absurd h (List.not_mem_nil t)
      · rintro ⟨-, hready⟩
        have : t ∈ runnableTasks tasks s.responses s.running :=
          (mem_runnableTasks_iff hnd ht).mpr hready
        rw [hnil] at this
        exact absurd this (List.not_mem_nil t)

/-- Witness for C1 at a concrete two-task mission in mid-flight. -/
theorem c1_witness :
    (⟨1, "b", "", [], [0], "High", ""⟩ : Task) ∈
        (schedulerStep
          [⟨0, "a", "", [], [], "High", ""⟩, ⟨1, "b", "", [], [0], "High", ""⟩]
          ⟨[⟨0, ResponseStatus.success, "done", none, none, none⟩,
              ⟨1, ResponseStatus.pending, "", none, none, none⟩],
            true, [], none, false, none⟩).2 ↔
      (true : Bool) = true ∧
        (∃ r ∈ [(⟨0, ResponseStatus.success, "done", none, none, none⟩ : ResponseItem),
              ⟨1, ResponseStatus.pending, "", none, none, none⟩],
            r.id = 1 ∧ r.status = ResponseStatus.pending) ∧
        1 ∉ ([] : List Nat) ∧
        ∀ d ∈ [0],
          ∃ r ∈ [(⟨0, ResponseStatus.success, "done", none, none, none⟩ : ResponseItem),
              ⟨1, ResponseStatus.pending, "", none, none, none⟩],
            r.id = d ∧ r.status = ResponseStatus.success :=
  c1_dispatch_iff_ready
    [⟨0, "a", "", [], [], "High", ""⟩, ⟨1, "b", "", [], [0], "High", ""⟩]
    ⟨[⟨0, ResponseStatus.success, "done", none, none, none⟩,
        ⟨1, ResponseStatus.pending, "", none, none, none⟩],
      true, [], none, false, none⟩
    ⟨1, "b", "", [], [0], "High", ""⟩ (by decide) (by decide)

/-- No response is pending implies the runnable set is empty. -/
theorem runnableTasks_eq_nil_of_no_pending {tasks : List Task}
    {responses : List ResponseItem} {running : List Nat}
    (h : ∀ r ∈ responses, r.status ≠ ResponseStatus.pending) :
    runnableTasks tasks responses running = [] := by
  unfold runnableTasks
  have hfil : responses.filter
      (fun r => r.status == ResponseStatus.pending && !(running.contains r.id)) = [] := by
    rw [List.filter_eq_nil_iff]
    intro r hr
    simp only [Bool.and_eq_true, beq_iff_eq, Bool.not_eq_true', not_and]
    intro hp
    exact absurd hp (h r hr)
  rw [hfil]
  rfl

/-- C2, counterexample.  A mission state where the running set is empty, one
result is Pending, and the runnable set is empty because its only dependency
is permanently Error: the scheduler's deadlock branch is guarded by
`!hasFailed`, so the step changes nothing — the Pending result is not marked
Error, no mission-level error is surfaced, and the loop is not stopped. -/
theorem c2_counterexample :
    (let tasks : List Task :=
        [⟨0, "a", "", [], [], "High", ""⟩, ⟨1, "b", "", [], [0], "High", ""⟩]
     let s : AppState :=
        ⟨[⟨0, ResponseStatus.error, "", some "boom", none, none⟩,
            ⟨1, ResponseStatus.pending, "", none, none, none⟩],
          true, [], none, false, none⟩
     s.running = [] ∧
       (s.responses.any (fun r => r.status == ResponseStatus.pending)) = true ∧
       runnableTasks tasks s.responses s.running = [] ∧
       schedulerStep tasks s = (s, []) ∧
       (schedulerStep tasks s).1.swarmError = none ∧
       (schedulerStep tasks s).1.isSwarming = true ∧
       ∃ r ∈ (schedulerStep tasks s).1.responses,
         r.status = ResponseStatus.pending ∧ r.error = none) := by
  decide

/-- C2, amended.  The deadlock branch fires only when additionally no result
has status Error: in a state with the mission active, the runnable set empty,
the running set empty, some result Pending and no result Error, the scheduler
marks every Pending result Error with the fixed per-task deadlock message,
stops the loop, and surfaces a single mission-level error. -/
theorem c2_amended_deadlock (tasks : List Task) (s : AppState)
    (hsw : s.isSwarming = true)
    (hrun : s.running = [])
    (hnil : runnableTasks tasks s.responses s.running = [])
    (hpend : s.responses.any (fun r => r.status == ResponseStatus.pending) = true)
    (hfail : s.responses.all (fun r => !(r.status == ResponseStatus.error)) = true) :
    (schedulerStep tasks s).1.responses
        = s.responses.map (fun r =>
            if r.status == ResponseStatus.pending then
              { r with status := ResponseStatus.error, error := some deadlockTaskMsg }
            else r) ∧
      (schedulerStep tasks s).1.isSwarming = false ∧
      (schedulerStep tasks s).1.swarmError = some (deadlockMissionMsg tasks s.responses) := by
  have hfail' : s.responses.any (fun r => r.status == ResponseStatus.error) = false := by
    rw [List.any_eq_false]
    intro r hr
    have := List.all_eq_true.mp hfail r hr
    simpa using this
  rw [hrun] at hnil
  simp [schedulerStep, hsw, hnil, hrun, hpend, hfail']

/-- Witness for C2's amended theorem: a single task blocked on a nonexistent
dependency id. -/
theorem c2_amended_witness :
    (schedulerStep [⟨1, "b", "", [], [99], "High", ""⟩]
          ⟨[⟨1, ResponseStatus.pending, "", none, none, none⟩], true, [], none, false,
            none⟩).1.responses
        = [⟨1, ResponseStatus.error, "", some deadlockTaskMsg, none, none⟩] ∧
      (schedulerStep [⟨1, "b", "", [], [99], "High", ""⟩]
          ⟨[⟨1, ResponseStatus.pending, "", none, none, none⟩], true, [], none, false,
            none⟩).1.isSwarming = false ∧
      (schedulerStep [⟨1, "b", "", [], [99], "High", ""⟩]
          ⟨[⟨1, ResponseStatus.pending, "", none, none, none⟩], true, [], none, false,
            none⟩).1.swarmError
        = some (deadlockMissionMsg [⟨1, "b", "", [], [99], "High", ""⟩]
            [⟨1, ResponseStatus.pending, "", none, none, none⟩]) := by
  have h := c2_amended_deadlock [⟨1, "b", "", [], [99], "High", ""⟩]
    ⟨[⟨1, ResponseStatus.pending, "", none, none, none⟩], true, [], none, false, none⟩
    (by decide) (by decide) (by decide) (by decide) (by decide)
  refine ⟨?_, h.2.1, h.2.2⟩
  rw [h.1]
  decide

/-- C3.  When the running set is empty and no result is Pending, the step
completes the mission regardless of the Success/Error mix (it stops the loop
and raises the mission-complete signal), and any step taken while the mission
is inactive changes nothing — so the signal fires exactly once per run. -/
theorem c3_completion_once (tasks : List Task) (s : AppState)
    (hsw : s.isSwarming = true)
    (hrun : s.running = [])
    (hnp : ∀ r ∈ s.responses, r.status ≠ ResponseStatus.pending) :
    (schedulerStep tasks s).1.isSwarming = false ∧
      (schedulerStep tasks s).1.swarmJustCompleted = true ∧
      ∀ s' : AppState, s'.isSwarming = false → schedulerStep tasks s' = (s', []) := by
  have hnil : runnableTasks tasks s.responses s.running = [] :=
    runnableTasks_eq_nil_of_no_pending hnp
  have hpend : s.responses.any (fun r => r.status == ResponseStatus.pending) = false := by
    rw [List.any_eq_false]
    intro r hr
    simpa using hnp r hr
  rw [hrun] at hnil
  refine ⟨?_, ?_, ?_⟩
  · simp [schedulerStep, hsw, hnil, hrun, hpend]
  · simp [schedulerStep, hsw, hnil, hrun, hpend]
  · intro s' h
    simp [schedulerStep, h]

/-- Witness for C3: a finished two-task mission with one Success and one
Error result. -/
theorem c3_witness :
    (schedulerStep [⟨0, "a", "", [], [], "High", ""⟩]
          ⟨[⟨0, ResponseStatus.success, "ok", none, none, none⟩,
              ⟨1, ResponseStatus.error, "", some "boom", none, none⟩],
            true, [], none, false, none⟩).1.isSwarming = false ∧
      (schedulerStep [⟨0, "a", "", [], [], "High", ""⟩]
          ⟨[⟨0, ResponseStatus.success, "ok", none, none, none⟩,
              ⟨1, ResponseStatus.error, "", some "boom", none, none⟩],
            true, [], none, false, none⟩).1.swarmJustCompleted = true ∧
      ∀ s' : AppState, s'.isSwarming = false →
        schedulerStep [⟨0, "a", "", [], [], "High", ""⟩] s' = (s', []) :=
  c3_completion_once [⟨0, "a", "", [], [], "High", ""⟩]
    ⟨[⟨0, ResponseStatus.success, "ok", none, none, none⟩,
        ⟨1, ResponseStatus.error, "", some "boom", none, none⟩],
      true, [], none, false, none⟩
    (by decide) (by decide) (by decide)

/-- C4.  When the single-task retry proceeds (mission inactive, target id has
a response entry), it resets exactly the target and the transitive closure of
tasks depending on it to Pending with cleared content, error, activeTool and
toolUsed fields, and leaves every response outside that closure unchanged. -/
theorem c4_retry_cascade (tasks : List Task) (s : AppState) (tid : Nat)
    (hsw : s.isSwarming = false)
    (hmem : ∃ r ∈ s.responses, r.id = tid) :
    (handleRetryTask tasks s tid).responses
      = s.responses.map (fun r =>
          if DependsOn tasks tid r.id then resetResponse r else r) := by
  obtain ⟨r₀, hr₀, hid₀⟩ := hmem
  have hfsome : (s.responses.find? (fun r => r.id == tid)).isSome := by
    rw [List.find?_isSome]
    exact ⟨r₀, hr₀, by simp [hid₀]⟩
  obtain ⟨u, hu⟩ := Option.isSome_iff_exists.mp hfsome
  simp only [handleRetryTask, hsw, Bool.false_eq_true, if_false, hu]
  refine List.map_congr_left ?_
  intro r _
  by_cases hd : DependsOn tasks tid r.id
  · rw [if_pos, if_pos hd]
    exact contains_true_iff.mpr ((findDependents_iff tasks tid r.id).mpr hd)
  · rw [if_neg, if_neg hd]
    intro hc
    exact hd ((findDependents_iff tasks tid r.id).mp (contains_true_iff.mp hc))

/-- Witness for C4: retrying task 1 in a four-task mission resets tasks 1 and
2 (its transitive dependents) and leaves 0 and 3 alone. -/
theorem c4_witness :
    (handleRetryTask
        [⟨0, "a", "", [], [], "High", ""⟩, ⟨1, "b", "", [], [0], "High", ""⟩,
          ⟨2, "c", "", [], [1], "Low", ""⟩, ⟨3, "d", "", [], [0], "Low", ""⟩]
        ⟨[⟨0, ResponseStatus.success, "A", none, none, none⟩,
            ⟨1, ResponseStatus.error, "B", some "boom", none, some "Hammer"⟩,
            ⟨2, ResponseStatus.pending, "", none, none, none⟩,
            ⟨3, ResponseStatus.success, "D", none, none, none⟩],
          false, [], none, false, none⟩ 1).responses
      = [⟨0, ResponseStatus.success, "A", none, none, none⟩,
          ⟨1, ResponseStatus.error, "B", some "boom", none, some "Hammer"⟩,
          ⟨2, ResponseStatus.pending, "", none, none, none⟩,
          ⟨3, ResponseStatus.success, "D", none, none, none⟩].map (fun r =>
            if DependsOn
                [⟨0, "a", "", [], [], "High", ""⟩, ⟨1, "b", "", [], [0], "High", ""⟩,
                  ⟨2, "c", "", [], [1], "Low", ""⟩, ⟨3, "d", "", [], [0], "Low", ""⟩]
                1 r.id then
              resetResponse r
            else r) :=
  c4_retry_cascade
    [⟨0, "a", "", [], [], "High", ""⟩, ⟨1, "b", "", [], [0], "High", ""⟩,
      ⟨2, "c", "", [], [1], "Low", ""⟩, ⟨3, "d", "", [], [0], "Low", ""⟩]
    ⟨[⟨0, ResponseStatus.success, "A", none, none, none⟩,
        ⟨1, ResponseStatus.error, "B", some "boom", none, some "Hammer"⟩,
        ⟨2, ResponseStatus.pending, "", none, none, none⟩,
        ⟨3, ResponseStatus.success, "D", none, none, none⟩],
      false, [], none, false, none⟩ 1 rfl
    ⟨⟨1, ResponseStatus.error, "B", some "boom", none, some "Hammer"⟩, by decide, rfl⟩

/-- Two responses of a list with `Nodup` ids and the same id are equal. -/
theorem response_eq_of_id_eq {responses : List ResponseItem}
    (hnd : (responses.map ResponseItem.id).Nodup)
    {r r' : ResponseItem} (hr : r ∈ responses) (hr' : r' ∈ responses)
    (h : r.id = r'.id) : r = r' :=
  List.inj_on_of_nodup_map hnd hr hr' h

/-- C6.  The retry-all-failed operation (mission inactive, unique response
ids) resets exactly the responses whose status is Error to Pending with
cleared content, error and tool fields, and leaves every Pending or Success
response unchanged — no cascade to dependents. -/
theorem c6_retry_all_failed (s : AppState)
    (hsw : s.isSwarming = false)
    (hnd : (s.responses.map ResponseItem.id).Nodup) :
    (handleRetryAllFailed s).responses
      = s.responses.map (fun r =>
          if r.status = ResponseStatus.error then resetResponse r else r) := by
  by_cases hlen :
      (s.responses.filter (fun r => r.status == ResponseStatus.error)).length = 0
  · have hnone : ∀ r ∈ s.responses, ¬ r.status = ResponseStatus.error := by
      intro r hr h
      have hmem : r ∈ s.responses.filter (fun r => r.status == ResponseStatus.error) :=
        List.mem_filter.mpr ⟨hr, by simp [h]⟩
      rw [List.length_eq_zero] at hlen
      rw [hlen] at hmem
      exact absurd hmem (List.not_mem_nil r)
    have hstep : handleRetryAllFailed s = s := by
      simp [handleRetryAllFailed, hsw, hlen]
    rw [hstep]
    calc s.responses
        = s.responses.map id := (List.map_id _).symm
      _ = s.responses.map (fun r =>
            if r.status = ResponseStatus.error then resetResponse r else r) :=
        List.map_congr_left (fun r hr => by simp [if_neg (hnone r hr)])
  · simp only [handleRetryAllFailed, hsw, Bool.false_eq_true, if_false]
    rw [if_neg (by simpa using hlen)]
    refine List.map_congr_left ?_
    intro r hr
    by_cases he : r.status = ResponseStatus.error
    · rw [if_pos, if_pos he]
      rw [contains_true_iff]
      refine List.mem_map.mpr ⟨r, List.mem_filter.mpr ⟨hr, by simp [he]⟩, rfl⟩
    · rw [if_neg, if_neg he]
      intro hc
      obtain ⟨r', hr', hid'⟩ := List.mem_map.mp (contains_true_iff.mp hc)
      obtain ⟨hr'mem, hr'err⟩ := List.mem_filter.mp hr'
      have : r' = r := response_eq_of_id_eq hnd hr'mem hr hid'
      subst this
      exact he (by simpa using hr'err)

/-- Witness for C6: one Error response is reset, the Success and Pending ones
and the Error task's dependent are untouched. -/
theorem c6_witness :
    (handleRetryAllFailed
        ⟨[⟨0, ResponseStatus.success, "A", none, none, none⟩,
            ⟨1, ResponseStatus.error, "B", some "boom", none, some "Hammer"⟩,
            ⟨2, ResponseStatus.pending, "", none, none, none⟩],
          false, [], none, false, none⟩).responses
      = [⟨0, ResponseStatus.success, "A", none, none, none⟩,
          ⟨1, ResponseStatus.error, "B", some "boom", none, some "Hammer"⟩,
          ⟨2, ResponseStatus.pending, "", none, none, none⟩].map (fun r =>
            if r.status = ResponseStatus.error then resetResponse r else r) :=
  c6_retry_all_failed
    ⟨[⟨0, ResponseStatus.success, "A", none, none, none⟩,
        ⟨1, ResponseStatus.error, "B", some "boom", none, some "Hammer"⟩,
        ⟨2, ResponseStatus.pending, "", none, none, none⟩],
      false, [], none, false, none⟩ rfl (by decide)

/-- The orchestration effect preserves the invariant that a Pending response
can only exist while the mission is swarming. -/
theorem schedulerStep_preserves_inv (tasks : List Task) (s : AppState)
    (ih : ∀ r ∈ s.responses, r.status = ResponseStatus.pending → s.isSwarming = true) :
    ∀ r ∈ (schedulerStep tasks s).1.responses,
      r.status = ResponseStatus.pending → (schedulerStep tasks s).1.isSwarming = true := by
  cases hb : s.isSwarming with
  | false =>
    have hstep : schedulerStep tasks s = (s, []) := by
      simp [schedulerStep, hb]
    rw [hstep]
    exact ih
  | true =>
    simp only [schedulerStep, hb, Bool.not_true, Bool.false_eq_true, if_false]
    split
    · exact fun r _ _ => rfl
    · split
      · rename_i hcond
        simp only [Bool.and_eq_true, Bool.not_eq_true', List.any_eq_false] at hcond
        intro r hr hp
        exact absurd (by simpa using hp) (hcond.2 r hr)
      · split
        · intro r hr hp
          obtain ⟨r₀, hr₀, rfl⟩ := List.mem_map.mp hr
          by_cases hp₀ : r₀.status == ResponseStatus.pending
          · rw [if_pos hp₀] at hp
            exact absurd hp (by simp)
          · rw [if_neg hp₀] at hp
            exact absurd (by simpa using hp) (by simpa using hp₀)
        · exact fun r hr hp => hb

/-- Every reachable application state satisfies: if any response is Pending,
the mission is swarming.  This is the invariant behind the retry guard. -/
theorem pending_swarming_invariant (tasks : List Task) :
    ∀ s : AppState, Reachable tasks s →
      ∀ r ∈ s.responses, r.status = ResponseStatus.pending → s.isSwarming = true := by
  intro s hs
  induction hs with
  | init =>
    intro r hr
    exact absurd hr (List.not_mem_nil r)
  | @step s₁ s₂ _ hstep ih =>
    cases hstep with
    | sched => exact schedulerStep_preserves_inv tasks s₁ ih
    | launch =>
      cases hb : s₁.isSwarming with
      | true =>
        have : handleLaunchSwarm tasks s₁ = s₁ := by simp [handleLaunchSwarm, hb]
        rw [this]
        exact ih
      | false =>
        have : (handleLaunchSwarm tasks s₁).isSwarming = true := by
          simp [handleLaunchSwarm, hb]
        exact fun r _ _ => this
    | retryTask tid =>
      cases hb : s₁.isSwarming with
      | true =>
        have : handleRetryTask tasks s₁ tid = s₁ := by simp [handleRetryTask, hb]
        rw [this]
        exact ih
      | false =>
        cases hf : s₁.responses.find? (fun r => r.id == tid) with
        | none =>
          have : handleRetryTask tasks s₁ tid = s₁ := by
            simp [handleRetryTask, hb, hf]
          rw [this]
          exact ih
        | some u =>
          have : (handleRetryTask tasks s₁ tid).isSwarming = true := by
            simp [handleRetryTask, hb, hf]
          exact fun r _ _ => this
    | retryAllFailed =>
      cases hb : s₁.isSwarming with
      | true =>
        have : handleRetryAllFailed s₁ = s₁ := by simp [handleRetryAllFailed, hb]
        rw [this]
        exact ih
      | false =>
        by_cases hlen :
            (s₁.responses.filter (fun r => r.status == ResponseStatus.error)).length = 0
        · have : handleRetryAllFailed s₁ = s₁ := by
            simp [handleRetryAllFailed, hb, hlen]
          rw [this]
          exact ih
        · have : (handleRetryAllFailed s₁).isSwarming = true := by
            simp only [handleRetryAllFailed, hb, Bool.false_eq_true, if_false]
            rw [if_neg (by simpa using hlen)]
          exact fun r _ _ => this
    | reset =>
      intro r hr
      exact absurd hr (List.not_mem_nil r)
    | sendMessage h =>
      intro r hr
      exact absurd hr (List.not_mem_nil r)
    | execActiveTool rid tool hrun =>
      intro r hr hp
      obtain ⟨r₀, hr₀, rfl⟩ := List.mem_map.mp hr
      refine ih r₀ hr₀ ?_
      by_cases hi : r₀.id == rid
      · rw [if_pos hi] at hp
        simpa using hp
      · rw [if_neg hi] at hp
        exact hp
    | execChunk rid chunk hrun =>
      intro r hr hp
      obtain ⟨r₀, hr₀, rfl⟩ := List.mem_map.mp hr
      refine ih r₀ hr₀ ?_
      by_cases hi : r₀.id == rid
      · rw [if_pos hi] at hp
        simpa using hp
      · rw [if_neg hi] at hp
        exact hp
    | execSuccess rid tool hrun =>
      intro r hr hp
      obtain ⟨r₀, hr₀, rfl⟩ := List.mem_map.mp hr
      refine ih r₀ hr₀ ?_
      by_cases hi : r₀.id == rid
      · rw [if_pos hi] at hp
        exact absurd hp (by simp)
      · rw [if_neg hi] at hp
        exact hp
    | execError rid msg tool hrun =>
      intro r hr hp
      obtain ⟨r₀, hr₀, rfl⟩ := List.mem_map.mp hr
      refine ih r₀ hr₀ ?_
      by_cases hi : r₀.id == rid
      · rw [if_pos hi] at hp
        exact absurd hp (by simp)
      · rw [if_neg hi] at hp
        exact hp
    | execMissing rid hrun =>
      intro r hr hp
      obtain ⟨r₀, hr₀, rfl⟩ := List.mem_map.mp hr
      refine ih r₀ hr₀ ?_
      by_cases hi : r₀.id == rid
      · rw [if_pos hi] at hp
        exact absurd hp (by simp)
      · rw [if_neg hi] at hp
        exact hp
    | execFinish rid =>
      exact fun r hr hp => ih r hr hp

/-- C5.  In every reachable application state, a retry request against a
target whose response status is not terminal (neither Success nor Error —
i.e. Pending, which includes every currently running task) is refused and
changes nothing: the mission must be swarming by the invariant, and the
handler returns the state unchanged. -/
theorem c5_retry_refused_nonterminal (tasks : List Task) (s : AppState) (tid : Nat)
    (hreach : Reachable tasks s) (r : ResponseItem) (hr : r ∈ s.responses)
    (_hid : r.id = tid)
    (hns : r.status ≠ ResponseStatus.success)
    (hne : r.status ≠ ResponseStatus.error) :
    handleRetryTask tasks s tid = s := by
  have hp : r.status = ResponseStatus.pending := by
    cases h : r.status
    · rfl
    · exact absurd h hns
    · exact absurd h hne
  have hsw : s.isSwarming = true := pending_swarming_invariant tasks s hreach r hr hp
  simp [handleRetryTask, hsw]

/-- Witness for C5: right after launching a one-task mission, retrying the
(Pending, running-eligible) task 0 is refused. -/
theorem c5_witness :
    handleRetryTask [⟨0, "t", "", [], [], "High", ""⟩]
        (handleLaunchSwarm [⟨0, "t", "", [], [], "High", ""⟩] initialAppState) 0
      = handleLaunchSwarm [⟨0, "t", "", [], [], "High", ""⟩] initialAppState :=
  c5_retry_refused_nonterminal [⟨0, "t", "", [], [], "High", ""⟩]
    (handleLaunchSwarm [⟨0, "t", "", [], [], "High", ""⟩] initialAppState) 0
    (Reachable.step Reachable.init (AppStep.launch initialAppState))
    ⟨0, ResponseStatus.pending, "", none, none, none⟩
    (by decide) rfl (by decide) (by decide)

/-- Full trace specification of the retry loop of `generateSingleResponse`:
the attempt counter advances, stays within `maxRetries`, the sleeps performed
are exactly the exponential-backoff delays for the consecutive failures, and
a permanent failure surfaces the error of the last attempt. -/
theorem runStreamGo_spec (attempts : Nat → AttemptResult) (maxRetries : Nat)
    (d : ℚ) (j : Nat → ℚ) :
    ∀ (fuel attempt : Nat) (acc : List String) (delays : List ℚ),
      maxRetries - attempt ≤ fuel → attempt < maxRetries →
      attempt < (runStreamGo attempts maxRetries d j attempt acc delays).attemptsMade ∧
      (runStreamGo attempts maxRetries d j attempt acc delays).attemptsMade ≤ maxRetries ∧
      (runStreamGo attempts maxRetries d j attempt acc delays).delays
        = delays ++ (List.range' attempt
            ((runStreamGo attempts maxRetries d j attempt acc delays).attemptsMade - 1
              - attempt)).map (fun i => d * 2 ^ i + j i) ∧
      ∀ e, (runStreamGo attempts maxRetries d j attempt acc delays).outcome
          = Except.error e →
        ∃ frags,
          attempts ((runStreamGo attempts maxRetries d j attempt acc delays).attemptsMade - 1)
            = AttemptResult.failure frags e := by
  intro fuel
  induction fuel with
  | zero =>
    intro attempt acc delays hf hm
    omega
  | succ fuel ih =>
    intro attempt acc delays hf hm
    cases hA : attempts attempt with
    | success frags =>
      have hstep : runStreamGo attempts maxRetries d j attempt acc delays
          = ⟨acc ++ frags, Except.ok (), delays, attempt + 1⟩ := by
        unfold runStreamGo
        rw [hA]
      rw [hstep]
      refine ⟨Nat.lt_succ_self _, Nat.succ_le_of_lt hm, ?_, ?_⟩
      · show delays = delays ++ (List.range' attempt (attempt + 1 - 1 - attempt)).map
          (fun i => d * 2 ^ i + j i)
        have h0 : attempt + 1 - 1 - attempt = 0 := by omega
        rw [h0]
        simp
      · intro e he
        exact absurd he (by simp)
    | failure frags err =>
      by_cases hstop : attempt + 1 ≥ maxRetries ∨ isRetryableError err = false
      · have hstep : runStreamGo attempts maxRetries d j attempt acc delays
            = ⟨acc ++ frags, Except.error err, delays, attempt + 1⟩ := by
          unfold runStreamGo
          rw [hA]
          exact dif_pos hstop
        rw [hstep]
        refine ⟨Nat.lt_succ_self _, Nat.succ_le_of_lt hm, ?_, ?_⟩
        · show delays = delays ++ (List.range' attempt (attempt + 1 - 1 - attempt)).map
            (fun i => d * 2 ^ i + j i)
          have h0 : attempt + 1 - 1 - attempt = 0 := by omega
          rw [h0]
          simp
        · intro e he
          have : err = e := by simpa using he
          subst this
          exact ⟨frags, by simpa using hA⟩
      · have h1 : attempt + 1 < maxRetries := by
          rcases not_or.mp hstop with ⟨ha, -⟩
          omega
        have hstep : runStreamGo attempts maxRetries d j attempt acc delays
            = runStreamGo attempts maxRetries d j (attempt + 1) (acc ++ frags)
                (delays ++ [d * 2 ^ attempt + j attempt]) := by
          conv_lhs => unfold runStreamGo
          rw [hA]
          exact dif_neg hstop
        rw [hstep]
        obtain ⟨ha, hb, hc, hd2⟩ :=
          ih (attempt + 1) (acc ++ frags) (delays ++ [d * 2 ^ attempt + j attempt])
            (by omega) h1
        refine ⟨by omega, hb, ?_, hd2⟩
        rw [hc]
        have hkey :
            (runStreamGo attempts maxRetries d j (attempt + 1) (acc ++ frags)
                  (delays ++ [d * 2 ^ attempt + j attempt])).attemptsMade - 1 - attempt
              = ((runStreamGo attempts maxRetries d j (attempt + 1) (acc ++ frags)
                  (delays ++ [d * 2 ^ attempt + j attempt])).attemptsMade - 1
                  - (attempt + 1)) + 1 := by
          omega
        rw [hkey, List.range'_succ]
        simp

/-- C7.  Across consecutive retryable failures of one `generateSingleResponse`
call, the delay slept before the k-th retry is `initialDelay * 2 ^ (k-1)`
plus the k-th jitter value (which the code draws from `[0, jitterMax)` with
`jitterMax = 1000`), no more than `maxRetries` attempts occur, a permanent
failure surfaces the last attempt's error, and the source defaults are
`maxRetries = 5`, `initialDelay = 1000`. -/
theorem c7_backoff_bound (attempts : Nat → AttemptResult) (maxRetries : Nat)
    (initialDelay : ℚ) (jitter : Nat → ℚ)
    (hm : 1 ≤ maxRetries)
    (hj : ∀ n, 0 ≤ jitter n ∧ jitter n < jitterMax) :
    (runStream attempts maxRetries initialDelay jitter).attemptsMade ≤ maxRetries ∧
      1 ≤ (runStream attempts maxRetries initialDelay jitter).attemptsMade ∧
      (runStream attempts maxRetries initialDelay jitter).delays
        = (List.range ((runStream attempts maxRetries initialDelay jitter).attemptsMade - 1)).map
            (fun i => initialDelay * 2 ^ i + jitter i) ∧
      (∀ n, 0 ≤ jitter n ∧ jitter n < jitterMax) ∧
      (∀ e, (runStream attempts maxRetries initialDelay jitter).outcome = Except.error e →
        ∃ frags,
          attempts ((runStream attempts maxRetries initialDelay jitter).attemptsMade - 1)
            = AttemptResult.failure frags e) ∧
      defaultMaxRetries = 5 ∧ defaultInitialDelay = 1000 ∧ jitterMax = 1000 := by
  obtain ⟨ha, hb, hc, hd⟩ :=
    runStreamGo_spec attempts maxRetries initialDelay jitter maxRetries 0 [] []
      (by omega) (by omega)
  have hrs : runStream attempts maxRetries initialDelay jitter
      = runStreamGo attempts maxRetries initialDelay jitter 0 [] [] := rfl
  rw [hrs]
  refine ⟨hb, ha, ?_, hj, hd, rfl, rfl, rfl⟩
  rw [hc]
  simp [List.range_eq_range']

/-- Witness for C7: two retryable failures then success, at the source
default parameters. -/
theorem c7_witness :
    ((runStream
          (fun n => match n with
            | 0 => AttemptResult.failure [] "503 unavailable"
            | 1 => AttemptResult.failure [] "rate limit hit"
            | _ => AttemptResult.success ["done"]) 5 1000 (fun _ => 1/2)).attemptsMade ≤ 5 ∧
        1 ≤ (runStream
          (fun n => match n with
            | 0 => AttemptResult.failure [] "503 unavailable"
            | 1 => AttemptResult.failure [] "rate limit hit"
            | _ => AttemptResult.success ["done"]) 5 1000 (fun _ => 1/2)).attemptsMade ∧
        (runStream
          (fun n => match n with
            | 0 => AttemptResult.failure [] "503 unavailable"
            | 1 => AttemptResult.failure [] "rate limit hit"
            | _ => AttemptResult.success ["done"]) 5 1000 (fun _ => 1/2)).delays
          = (List.range ((runStream
              (fun n => match n with
                | 0 => AttemptResult.failure [] "503 unavailable"
                | 1 => AttemptResult.failure [] "rate limit hit"
                | _ => AttemptResult.success ["done"]) 5 1000
                (fun _ => 1/2)).attemptsMade - 1)).map
              (fun i => (1000 : ℚ) * 2 ^ i + (fun _ => (1/2 : ℚ)) i) ∧
        (∀ n : Nat, 0 ≤ ((fun _ => (1/2 : ℚ)) n) ∧ ((fun _ => (1/2 : ℚ)) n) < jitterMax) ∧
        (∀ e, (runStream
            (fun n => match n with
              | 0 => AttemptResult.failure [] "503 unavailable"
              | 1 => AttemptResult.failure [] "rate limit hit"
              | _ => AttemptResult.success ["done"]) 5 1000 (fun _ => 1/2)).outcome
              = Except.error e →
          ∃ frags,
            (fun n => match n with
              | 0 => AttemptResult.failure [] "503 unavailable"
              | 1 => AttemptResult.failure [] "rate limit hit"
              | _ => AttemptResult.success ["done"])
              ((runStream
                (fun n => match n with
                  | 0 => AttemptResult.failure [] "503 unavailable"
                  | 1 => AttemptResult.failure [] "rate limit hit"
                  | _ => AttemptResult.success ["done"]) 5 1000
                  (fun _ => 1/2)).attemptsMade - 1)
              = AttemptResult.failure frags e) ∧
        defaultMaxRetries = 5 ∧ defaultInitialDelay = 1000 ∧ jitterMax = 1000) :=
  c7_backoff_bound
    (fun n => match n with
      | 0 => AttemptResult.failure [] "503 unavailable"
      | 1 => AttemptResult.failure [] "rate limit hit"
      | _ => AttemptResult.success ["done"]) 5 1000 (fun _ => 1/2)
    (by norm_num)
    (by intro n; constructor <;> norm_num [jitterMax])

/-- Declarative substring occurrence: `pat` occurs contiguously in `hay`. -/
def occursIn (pat hay : List Char) : Prop :=
  ∃ l r, hay = l ++ pat ++ r

/-- Boolean prefix test agrees with the existence of a tail. -/
theorem isPrefixOf_iff_exists :
    ∀ (p h : List Char), p.isPrefixOf h = true ↔ ∃ tl, h = p ++ tl := by
  intro p
  induction p with
  | nil =>
    intro h
    simp [List.isPrefixOf]
  | cons a p ih =>
    intro h
    cases h with
    | nil => simp [List.isPrefixOf]
    | cons b hs =>
      simp only [List.isPrefixOf, Bool.and_eq_true, beq_iff_eq, ih, List.cons_append,
        List.cons.injEq]
      constructor
      · rintro ⟨heq, tl, rfl⟩
        exact ⟨tl, heq.symm, rfl⟩
      · rintro ⟨tl, heq, hhs⟩
        exact ⟨heq.symm, tl, hhs⟩

/-- The boolean `includes` model agrees with declarative occurrence. -/
theorem containsSub_iff {pat : List Char} :
    ∀ {hay : List Char}, containsSub pat hay = true ↔ occursIn pat hay := by
  intro hay
  induction hay with
  | nil =>
    simp only [containsSub, occursIn, List.isEmpty_iff]
    constructor
    · rintro rfl
      exact ⟨[], [], rfl⟩
    · rintro ⟨l, r, h⟩
      rcases List.append_eq_nil.mp h.symm with ⟨h1, h2⟩
      rcases List.append_eq_nil.mp h1 with ⟨-, h3⟩
      exact h3
  | cons c rest ih =>
    simp only [containsSub, Bool.or_eq_true, ih, isPrefixOf_iff_exists, occursIn]
    constructor
    · rintro (⟨tl, htl⟩ | ⟨l, r, hlr⟩)
      · exact ⟨[], tl, by simpa using htl⟩
      · exact ⟨c :: l, r, by simp [hlr]⟩
    · rintro ⟨l, r, hlr⟩
      cases l with
      | nil =>
        exact Or.inl ⟨r, by simpa using hlr⟩
      | cons x xs =>
        rw [List.cons_append, List.cons_append, List.cons.injEq] at hlr
        exact Or.inr ⟨xs, r, hlr.2⟩

/-- C8.  `isRetryableError` classifies an error as retryable exactly when its
lower-cased message contains one of the transient-condition markers (503 /
unavailable — server unavailable, 500 / internal — internal error, rate
limit — rate limiting); and when an attempt of `askProjectManager` produces a
non-retryable error — in particular a parse failure of the structured
response — the call fails immediately: no backoff is slept, exactly one
attempt is made, and the last error is surfaced in the wrapped message. -/
theorem c8_error_classification (α : Type) (parse : String → Except String α)
    (attempts : Nat → PMAttempt) (maxRetries : Nat) (initialDelay : ℚ)
    (jitter : Nat → ℚ) (t e : String)
    (h1 : attempts 0 = PMAttempt.response t)
    (h2 : parse (sanitizeJsonText t) = Except.error e)
    (h3 : isRetryableError e = false) :
    (∀ msg : String, isRetryableError msg = true ↔
        (occursIn "503".toList (msg.toList.map Char.toLower) ∨
          occursIn "unavailable".toList (msg.toList.map Char.toLower) ∨
          occursIn "500".toList (msg.toList.map Char.toLower) ∨
          occursIn "internal".toList (msg.toList.map Char.toLower) ∨
          occursIn "rate limit".toList (msg.toList.map Char.toLower))) ∧
      (askProjectManager parse attempts maxRetries initialDelay jitter).outcome
        = Except.error ("Failed to get plan from Project Manager: " ++ e) ∧
      (askProjectManager parse attempts maxRetries initialDelay jitter).delays = [] ∧
      (askProjectManager parse attempts maxRetries initialDelay jitter).attemptsMade = 1 := by
  have hout : pmAttemptOutcome parse (attempts 0) = Except.error e := by
    rw [h1]
    exact h2
  have hstep : askProjectManager parse attempts maxRetries initialDelay jitter
      = ⟨Except.error ("Failed to get plan from Project Manager: " ++ e), [], 1⟩ := by
    show askProjectManagerGo parse attempts maxRetries initialDelay jitter 0 [] = _
    conv_lhs => unfold askProjectManagerGo
    rw [hout]
    exact dif_pos (Or.inr h3)
  refine ⟨?_, by rw [hstep], by rw [hstep], by rw [hstep]⟩
  intro msg
  simp only [isRetryableError, Bool.or_eq_true, containsSub_iff]
  tauto

/-- Witness for C8: a constant parse failure whose message matches no
transient pattern fails on the first attempt. -/
theorem c8_witness :
    ((∀ msg : String, isRetryableError msg = true ↔
          (occursIn "503".toList (msg.toList.map Char.toLower) ∨
            occursIn "unavailable".toList (msg.toList.map Char.toLower) ∨
            occursIn "500".toList (msg.toList.map Char.toLower) ∨
            occursIn "internal".toList (msg.toList.map Char.toLower) ∨
            occursIn "rate limit".toList (msg.toList.map Char.toLower))) ∧
        (askProjectManager (fun _ => (Except.error "Unexpected token o in JSON" : Except String Unit))
            (fun _ => PMAttempt.response "not json") 5 1000 (fun _ => 0)).outcome
          = Except.error ("Failed to get plan from Project Manager: "
              ++ "Unexpected token o in JSON") ∧
        (askProjectManager (fun _ => (Except.error "Unexpected token o in JSON" : Except String Unit))
            (fun _ => PMAttempt.response "not json") 5 1000 (fun _ => 0)).delays = [] ∧
        (askProjectManager (fun _ => (Except.error "Unexpected token o in JSON" : Except String Unit))
            (fun _ => PMAttempt.response "not json") 5 1000 (fun _ => 0)).attemptsMade = 1) :=
  c8_error_classification Unit
    (fun _ => (Except.error "Unexpected token o in JSON" : Except String Unit))
    (fun _ => PMAttempt.response "not json") 5 1000 (fun _ => 0)
    "not json" "Unexpected token o in JSON" rfl rfl (by decide)

/-- The attempt schedule of spec scenario C gone wrong: the first streaming
attempt yields a fragment and then fails with a retryable 503 error, the
second attempt succeeds with its own fragment. -/
def c9attempts : Nat → AttemptResult
  | 0 => AttemptResult.failure ["A"] "503 Service Unavailable"
  | _ => AttemptResult.success ["B"]

/-- C9, violated by the code.  A streaming call that fails mid-stream with a
retryable error and then succeeds reaches a successful outcome, but the
fragments already yielded by the failed attempt are NOT discarded: the
consumer sees `["A", "B"]`, so the task's accumulated content is `"AB"`,
not the successful attempt's `"B"` alone. -/
theorem c9_duplicated_fragments :
    (runStream c9attempts 5 1000 (fun _ => 0)).outcome = Except.ok () ∧
      (runStream c9attempts 5 1000 (fun _ => 0)).yielded = ["A", "B"] ∧
      String.join ((runStream c9attempts 5 1000 (fun _ => 0)).yielded) = "AB" ∧
      "AB" ≠ "B" := by
  have h1 : isRetryableError "503 Service Unavailable" = true := by decide
  have hstep1 : runStream c9attempts 5 1000 (fun _ => 0)
      = runStreamGo c9attempts 5 1000 (fun _ => 0) 1 ["A"]
          [1000 * 2 ^ 0 + 0] := by
    show runStreamGo c9attempts 5 1000 (fun _ => 0) 0 [] [] = _
    conv_lhs => unfold runStreamGo
    rw [show c9attempts 0 = AttemptResult.failure ["A"] "503 Service Unavailable" from rfl]
    refine dif_neg ?_
    rw [not_or, h1]
    exact ⟨by omega, by simp⟩
  have hstep2 : runStreamGo c9attempts 5 1000 (fun _ => 0) 1 ["A"] [1000 * 2 ^ 0 + 0]
      = ⟨["A"] ++ ["B"], Except.ok (), [1000 * 2 ^ 0 + 0], 2⟩ := by
    conv_lhs => unfold runStreamGo
    rw [show c9attempts 1 = AttemptResult.success ["B"] from rfl]
  rw [hstep1, hstep2]
  refine ⟨rfl, rfl, rfl, by decide⟩

/-- C10.  Starting the executor for a response id with no matching task
definition marks exactly that response as Error with a message naming the
missing id, issues no remote call, and leaves every other response
unchanged. -/
theorem c10_missing_task (tasks : List Task) (responses : List ResponseItem) (rid : Nat)
    (h : ∀ t ∈ tasks, t.id ≠ rid) :
    (processStreamStart tasks responses rid).remoteCallIssued = false ∧
      (processStreamStart tasks responses rid).responses
        = responses.map (fun r =>
            if r.id == rid then
              { r with status := ResponseStatus.error, error := some (taskNotFoundMsg rid) }
            else r) ∧
      taskNotFoundMsg rid = "Task definition for ID " ++ toString rid ++ " not found." := by
  have hfind : tasks.find? (fun t => t.id == rid) = none := by
    rw [List.find?_eq_none]
    intro t ht
    simpa using h t ht
  refine ⟨?_, ?_, rfl⟩ <;> simp [processStreamStart, hfind]

/-- Witness for C10: executor started for id 5 in a mission that only defines
task 0. -/
theorem c10_witness :
    ((processStreamStart [⟨0, "a", "", [], [], "High", ""⟩]
          [⟨5, ResponseStatus.pending, "", none, none, none⟩,
            ⟨0, ResponseStatus.success, "ok", none, none, none⟩] 5).remoteCallIssued = false ∧
        (processStreamStart [⟨0, "a", "", [], [], "High", ""⟩]
            [⟨5, ResponseStatus.pending, "", none, none, none⟩,
              ⟨0, ResponseStatus.success, "ok", none, none, none⟩] 5).responses
          = [(⟨5, ResponseStatus.pending, "", none, none, none⟩ : ResponseItem),
              ⟨0, ResponseStatus.success, "ok", none, none, none⟩].map (fun r =>
              if r.id == 5 then
                { r with status := ResponseStatus.error, error := some (taskNotFoundMsg 5) }
              else r) ∧
        taskNotFoundMsg 5 = "Task definition for ID " ++ toString 5 ++ " not found.") :=
  c10_missing_task [⟨0, "a", "", [], [], "High", ""⟩]
    [⟨5, ResponseStatus.pending, "", none, none, none⟩,
      ⟨0, ResponseStatus.success, "ok", none, none, none⟩] 5 (by decide)

end Swarm
